import Mathlib

/-!
Verification development for the Playback and Practice Engine of the
Piano-Shaima repository (src/App.tsx, src/types.ts, src/services).

Shallow embedding conventions:
* All times are rationals.  `performance.now()` instants and timer delays are
  in milliseconds; `audioContext.currentTime` instants are in seconds, exactly
  as in the source.
* React `useState` values and `useRef` cells are collected into one
  `EngineState` record; each handler or effect body becomes a pure function
  `EngineState -> EngineState` applying the final value of every state write
  (React batches state writes inside one handler, last write wins).
* Web Audio oscillator nodes are modelled by `OscNode`; per the Web Audio
  specification `stop()` throws InvalidStateError only when `start()` was
  never called, and calling `stop()` again merely reschedules the stop time.
  Fallible node operations return `Except`; the `try/catch` in
  `stopAllSounds` is modelled by absorbing the error branch.
* Gain-envelope values (fade-in/fade-out ramps) do not affect any claim and
  are not tracked beyond the scheduled stop instants.
-/

/-- Transport state, from `AppState` in src/types.ts. -/
inductive AppState where
  | IDLE
  | LOADING
  | LOADED
  | PLAYING
  | PAUSED
  | ERROR
  | LEARNING
deriving DecidableEq

/-- A timed note, from `SongNote` in src/types.ts: pitch name (or the rest
marker "Rest"), duration in ms, absolute start offset in ms. -/
structure SongNote where
  note : String
  duration : ℚ
  startTime : ℚ
deriving DecidableEq

/-- The `noteFrequencies` table from src/App.tsx (C3..B5). -/
def noteFrequencies : List (String × ℚ) :=
  [("C3", 13081/100), ("C#3", 13859/100), ("D3", 14683/100), ("D#3", 15556/100),
   ("E3", 16481/100), ("F3", 17461/100), ("F#3", 18500/100), ("G3", 19600/100),
   ("G#3", 20765/100), ("A3", 22000/100), ("A#3", 23308/100), ("B3", 24694/100),
   ("C4", 26163/100), ("C#4", 27718/100), ("D4", 29366/100), ("D#4", 31113/100),
   ("E4", 32963/100), ("F4", 34923/100), ("F#4", 36999/100), ("G4", 39200/100),
   ("G#4", 41530/100), ("A4", 44000/100), ("A#4", 46616/100), ("B4", 49388/100),
   ("C5", 52325/100), ("C#5", 55437/100), ("D5", 58733/100), ("D#5", 62225/100),
   ("E5", 65925/100), ("F5", 69846/100), ("F#5", 73999/100), ("G5", 78399/100),
   ("G#5", 83061/100), ("A5", 88000/100), ("A#5", 93233/100), ("B5", 98777/100)]

/-- `noteFrequencies[note] || 440` as used by `playNote` and `scheduleSong`. -/
def noteFreq (note : String) : ℚ :=
  (noteFrequencies.lookup note).getD 440

/-- An oscillator node: whether `start()` was called and the (latest)
scheduled stop instant in audio-clock seconds. -/
structure OscNode where
  freq : ℚ
  started : Bool
  stopTime : Option ℚ
deriving DecidableEq

/-- `oscillator.stop(t)`: per the Web Audio specification this throws
InvalidStateError when the node was never started, and otherwise (also on a
node whose stop was already scheduled) just records the new stop time. -/
def oscStopE (t : ℚ) (n : OscNode) : Except String OscNode :=
  if n.started then Except.ok { n with stopTime := some t }
  else Except.error "InvalidStateError"

/-- One entry of `scheduledNodesRef`: a tone armed by `scheduleSong`, with its
absolute start and stop instants on the audio clock (seconds). -/
structure ScheduledTone where
  pitch : String
  startAt : ℚ
  stopAt : ℚ
  osc : OscNode
deriving DecidableEq

/-- One entry of `scheduledUiCallbacksRef`: either a per-note highlight
`setTimeout` (delay in ms, payload note and startTime) or the end-of-song
`setTimeout` armed after the loop. -/
inductive UiTimer where
  | highlight (delayMs : ℚ) (note : String) (noteStartTime : ℚ)
  | endOfSong (delayMs : ℚ)
deriving DecidableEq

/-- All engine-relevant React state and refs of the `App` component. -/
structure EngineState where
  appState : AppState
  song : Option (List SongNote)
  highlightedNote : Option String
  highlightedStartTime : Option ℚ
  activeNotes : Finset String
  playbackSpeed : ℚ
  learningNoteIndex : ℕ
  correctPressNote : Option String
  incorrectPressNote : Option String
  completionMessage : Option String
  playbackStartTime : ℚ
  playbackProgressRef : ℚ
  playbackProgress : ℚ
  scheduledNodes : List ScheduledTone
  scheduledUiCallbacks : List UiTimer
  manualNodes : List (String × OscNode)
deriving DecidableEq

/-- The component's initial state (the `useState` initialisers). -/
def initialState : EngineState :=
  { appState := AppState.IDLE
    song := none
    highlightedNote := none
    highlightedStartTime := none
    activeNotes := ∅
    playbackSpeed := 1
    learningNoteIndex := 0
    correctPressNote := none
    incorrectPressNote := none
    completionMessage := none
    playbackStartTime := 0
    playbackProgressRef := 0
    playbackProgress := 0
    scheduledNodes := []
    scheduledUiCallbacks := []
    manualNodes := [] }

/-- State effect of `stopAllSounds` (src/App.tsx:194-218): discard every
scheduled node, cancel every armed UI timer, release every manual node and
empty the active-note set. -/
def stopAllSounds (st : EngineState) : EngineState :=
  { st with scheduledNodes := []
            scheduledUiCallbacks := []
            manualNodes := []
            activeNotes := ∅ }

/-- The scheduled-node loop of `stopAllSounds` with its `try { ... } catch`:
any error from stopping a node is ignored. -/
def stopTonesTryE (audioNow : ℚ) : List ScheduledTone → Except String Unit
  | [] => Except.ok ()
  | tone :: rest =>
    match oscStopE (audioNow + 1/20) tone.osc with
    | Except.ok _ => stopTonesTryE audioNow rest
    | Except.error _ => stopTonesTryE audioNow rest

/-- The manual-node loop of `stopAllSounds`; this loop has no `try/catch`, so
an error from `oscillator.stop` would propagate to the caller. -/
def stopManualNodesE (audioNow : ℚ) : List (String × OscNode) → Except String Unit
  | [] => Except.ok ()
  | pn :: rest =>
    match oscStopE (audioNow + 1/20) pn.2 with
    | Except.ok _ => stopManualNodesE audioNow rest
    | Except.error e => Except.error e

/-- `stopAllSounds` with its fallible node operations made explicit: stop all
scheduled nodes (errors caught), stop all manual nodes (no catch), then clear
the collections and the active-note set. -/
def stopAllSoundsE (audioNow : ℚ) (st : EngineState) : Except String EngineState :=
  match stopTonesTryE audioNow st.scheduledNodes with
  | Except.ok _ =>
    match stopManualNodesE audioNow st.manualNodes with
    | Except.ok _ => Except.ok (stopAllSounds st)
    | Except.error e => Except.error e
  | Except.error e => Except.error e

/-- `playNote` (src/App.tsx:220-238): no-op for the rest marker or an already
held note; otherwise allocate and start an oscillator and add the note to the
active set.  The audio context is assumed available. -/
def playNote (st : EngineState) (note : String) : EngineState :=
  if note = "Rest" ∨ (st.manualNodes.lookup note).isSome then st
  else
    { st with
        manualNodes := (note, { freq := noteFreq note, started := true,
                                stopTime := none }) :: st.manualNodes
        activeNotes := insert note st.activeNotes }

/-- `stopNote` (src/App.tsx:240-259): no-op when the note is not held;
otherwise ramp down, schedule the oscillator stop 0.1 s out and remove the
note from the active set.  The node stays in the map until its `onended`
callback fires, as in the source. -/
def stopNote (audioNow : ℚ) (st : EngineState) (note : String) : EngineState :=
  match st.manualNodes.lookup note with
  | none => st
  | some _ =>
    { st with
        manualNodes := st.manualNodes.map (fun pn =>
          if pn.1 = note then (pn.1, { pn.2 with stopTime := some (audioNow + 1/10) })
          else pn)
        activeNotes := st.activeNotes.erase note }

/-- `stopNote` with the (uncaught) `oscillator.stop` made explicit. -/
def stopNoteE (audioNow : ℚ) (st : EngineState) (note : String) :
    Except String EngineState :=
  match st.manualNodes.lookup note with
  | none => Except.ok st
  | some n =>
    match oscStopE (audioNow + 1/10) n with
    | Except.ok _ => Except.ok (stopNote audioNow st note)
    | Except.error e => Except.error e

/-- `(note.startTime - startOffsetMs) / (1000 * playbackSpeed)` from
`scheduleSong`. -/
def startTimeSec (speed offset : ℚ) (n : SongNote) : ℚ :=
  (n.startTime - offset) / (1000 * speed)

/-- `note.duration / (1000 * playbackSpeed)` from `scheduleSong`. -/
def durationSec (speed : ℚ) (n : SongNote) : ℚ :=
  n.duration / (1000 * speed)

/-- The highlight `setTimeout` armed for one kept note in `scheduleSong`. -/
def mkHighlight (offset speed : ℚ) (n : SongNote) : UiTimer :=
  UiTimer.highlight (startTimeSec speed offset n * 1000) n.note n.startTime

/-- The oscillator/gain pair armed for one kept non-rest note in
`scheduleSong`: started at `playbackStartTime + startTimeSec` and stopped one
scaled duration later. -/
def mkTone (offset speed audioNow : ℚ) (n : SongNote) : ScheduledTone :=
  { pitch := n.note
    startAt := audioNow + startTimeSec speed offset n
    stopAt := audioNow + startTimeSec speed offset n + durationSec speed n
    osc := { freq := noteFreq n.note, started := true,
             stopTime := some (audioNow + startTimeSec speed offset n + durationSec speed n) } }

/-- The notes `scheduleSong` keeps: the loop body returns early when
`note.startTime < startOffsetMs`. -/
def keptNotes (song : List SongNote) (offset : ℚ) : List SongNote :=
  song.filter (fun n => !decide (n.startTime < offset))

/-- The highlight timers armed by one `scheduleSong` call (in note order). -/
def buildUiTimers (song : List SongNote) (offset speed : ℚ) : List UiTimer :=
  (keptNotes song offset).map (mkHighlight offset speed)

/-- The tones armed by one `scheduleSong` call (kept notes that are not
rests, in note order). -/
def buildTones (song : List SongNote) (offset speed audioNow : ℚ) : List ScheduledTone :=
  ((keptNotes song offset).filter (fun n => !decide (n.note = "Rest"))).map
    (mkTone offset speed audioNow)

/-- `scheduleSong` (src/App.tsx:261-320): no-op without a song; otherwise
tear everything down, arm one highlight timer per remaining note and one tone
per remaining non-rest note, then either arm the end-of-song timeout (song
non-empty) or transition straight to LOADED (song empty). -/
def scheduleSong (audioNow startOffsetMs : ℚ) (st : EngineState) : EngineState :=
  match st.song with
  | none => st
  | some song =>
    let st1 := stopAllSounds st
    let st2 := { st1 with
        scheduledNodes := buildTones song startOffsetMs st.playbackSpeed audioNow
        scheduledUiCallbacks := buildUiTimers song startOffsetMs st.playbackSpeed }
    match song.getLast? with
    | some lastNote =>
      let songDurationMs :=
        (lastNote.startTime + lastNote.duration - startOffsetMs) / st.playbackSpeed
      { st2 with scheduledUiCallbacks :=
          st2.scheduledUiCallbacks ++ [UiTimer.endOfSong (songDurationMs + 100)] }
    | none => { st2 with appState := AppState.LOADED }

/-- Body of the end-of-song `setTimeout` armed by `scheduleSong`. -/
def fireEndTimeout (st : EngineState) : EngineState :=
  { st with appState := AppState.LOADED
            highlightedNote := none
            highlightedStartTime := none
            playbackProgressRef := 0
            playbackProgress := 0 }

/-- The derived elapsed song time, exactly as computed by `animationLoop`
(src/App.tsx:146-154): `playbackProgressRef + (now - playbackStartTime) *
playbackSpeed`. -/
def derivedElapsed (nowPerf : ℚ) (st : EngineState) : ℚ :=
  st.playbackProgressRef + (nowPerf - st.playbackStartTime) * st.playbackSpeed

/-- One `animationLoop` tick: while PLAYING, publish the derived elapsed time
as `playbackProgress`. -/
def animationTick (nowPerf : ℚ) (st : EngineState) : EngineState :=
  if st.appState = AppState.PLAYING
  then { st with playbackProgress := derivedElapsed nowPerf st }
  else st

/-- `resetPlayback` (src/App.tsx:355-363). -/
def resetPlayback (st : EngineState) : EngineState :=
  let st1 := stopAllSounds st
  let st2 := { st1 with highlightedNote := none
                        highlightedStartTime := none
                        playbackProgressRef := 0
                        playbackProgress := 0 }
  if st.appState = AppState.PLAYING ∨ st.appState = AppState.PAUSED
  then { st2 with appState := AppState.LOADED }
  else st2

/-- `handlePlayPause` (src/App.tsx:365-376).  Pause branch: fold the elapsed
wall-clock interval (scaled by the current multiplier) into the progress ref,
tear all sounds down, go to PAUSED.  Play/Resume branch: re-anchor the clock,
build a plan from the frozen offset (0 unless resuming), set PLAYING. -/
def handlePlayPause (nowPerf audioNow : ℚ) (st : EngineState) : EngineState :=
  if st.appState = AppState.PLAYING then
    let elapsedTime := (nowPerf - st.playbackStartTime) * st.playbackSpeed
    let st1 := { st with playbackProgressRef := st.playbackProgressRef + elapsedTime }
    { stopAllSounds st1 with appState := AppState.PAUSED }
  else
    let st1 := { st with playbackStartTime := nowPerf }
    let st2 := scheduleSong audioNow
      (if st.appState = AppState.PAUSED then st.playbackProgressRef else 0) st1
    { st2 with appState := AppState.PLAYING }

/-- The `setPlaybackSpeed` state write (the speed `select` control). -/
def setSpeed (newSpeed : ℚ) (st : EngineState) : EngineState :=
  { st with playbackSpeed := newSpeed }

/-- Body of the speed-change `useEffect` (src/App.tsx:445-454), run after the
speed state has been updated: while PLAYING, recompute the progress with the
(new) multiplier, re-anchor the clock and rebuild the plan from there. -/
def speedChangeEffect (nowPerf audioNow : ℚ) (st : EngineState) : EngineState :=
  if st.appState = AppState.PLAYING then
    let elapsedTime := nowPerf - st.playbackStartTime
    let currentProgress := st.playbackProgressRef + elapsedTime * st.playbackSpeed
    scheduleSong audioNow currentProgress
      { st with playbackStartTime := nowPerf, playbackProgressRef := currentProgress }
  else st

/-- Changing the speed control: the state write followed by the effect run
(the effect observes the already-updated speed). -/
def changeSpeed (newSpeed nowPerf audioNow : ℚ) (st : EngineState) : EngineState :=
  speedChangeEffect nowPerf audioNow (setSpeed newSpeed st)

/-- The rest-skipping `while` loop of `handleToggleLearning` and `onNoteDown`,
iterating over the suffix of the song that starts at the loop counter:
each rest advances the counter, the first non-rest (or the end) stops it. -/
def skipRestsFrom : List SongNote → ℕ → ℕ
  | [], i => i
  | n :: rest, i => if n.note = "Rest" then skipRestsFrom rest (i + 1) else i

/-- `while (song[i] && song[i].note === 'Rest') i++` started at `i`. -/
def skipRests (song : List SongNote) (i : ℕ) : ℕ :=
  skipRestsFrom (song.drop i) i

/-- `onNoteDown` (src/App.tsx:322-351).  In LEARNING mode with a song: on a
match sound the note, pulse "correct", and either advance the cursor past any
consecutive rests or (at song end) post the completion message; on a mismatch
pulse "incorrect".  Otherwise free play. -/
def onNoteDown (note : String) (st : EngineState) : EngineState :=
  match st.appState, st.song with
  | AppState.LEARNING, some song =>
    match song.get? st.learningNoteIndex with
    | some currentNoteToPlay =>
      if note = currentNoteToPlay.note then
        let st1 := { playNote st note with correctPressNote := some note }
        let nextIndex := skipRests song (st.learningNoteIndex + 1)
        if song.length ≤ nextIndex then
          { st1 with completionMessage := some "Congratulations!" }
        else
          { st1 with learningNoteIndex := nextIndex }
      else
        { st with incorrectPressNote := some note }
    | none => { st with incorrectPressNote := some note }
  | _, _ => playNote st note

/-- Body of the 2000 ms completion `setTimeout` in `onNoteDown`
(src/App.tsx:336-340). -/
def fireCompletionTimeout (st : EngineState) : EngineState :=
  { st with appState := AppState.LOADED
            learningNoteIndex := 0
            completionMessage := none }

/-- `handleToggleLearning` (src/App.tsx:378-392). -/
def handleToggleLearning (st : EngineState) : EngineState :=
  if st.appState = AppState.LEARNING then
    { st with appState := AppState.LOADED
              learningNoteIndex := 0
              highlightedNote := none
              highlightedStartTime := none }
  else
    match st.song with
    | some song =>
      let st1 := resetPlayback st
      { st1 with completionMessage := none
                 learningNoteIndex := skipRests song 0
                 appState := AppState.LEARNING }
    | none => st

/-- Body of the learning-highlight `useEffect` (src/App.tsx:456-465): in
LEARNING mode with the cursor in range, highlight the cursor note directly;
outside PLAYING/PAUSED/LEARNING clear the highlight. -/
def learningHighlightEffect (st : EngineState) : EngineState :=
  match st.appState, st.song with
  | AppState.LEARNING, some song =>
    match song.get? st.learningNoteIndex with
    | some currentNote =>
      { st with highlightedNote := some currentNote.note
                highlightedStartTime := some currentNote.startTime }
    | none => st
  | _, _ =>
    if st.appState ≠ AppState.PLAYING ∧ st.appState ≠ AppState.PAUSED ∧
       st.appState ≠ AppState.LEARNING
    then { st with highlightedNote := none, highlightedStartTime := none }
    else st

/-- A minimal JSON value, the result of `JSON.parse` in the generation
service (src/services/geminiService.ts, both variants).  The network call,
response-text extraction and `JSON.parse` itself are library/external steps;
the validation logic below starts from the parsed value. -/
inductive JVal where
  | jnull
  | jbool (b : Bool)
  | jnum (q : ℚ)
  | jstr (s : String)
  | jarr (items : List JVal)
  | jobj (fields : List (String × JVal))

/-- The `isValidStructure` element check of the first `getSongNotes` variant:
an object with a string `note`, numeric `duration` and numeric `startTime`. -/
def isValidNoteObj (v : JVal) : Bool :=
  match v with
  | JVal.jobj fields =>
    (match fields.lookup "note" with | some (JVal.jstr _) => true | _ => false) &&
    (match fields.lookup "duration" with | some (JVal.jnum _) => true | _ => false) &&
    (match fields.lookup "startTime" with | some (JVal.jnum _) => true | _ => false)
  | _ => false

/-- The `notes as SongNote[]` cast: read the three fields, with JS-style
defaults for absent/ill-typed fields (never hit under the validity checks). -/
def toSongNote (v : JVal) : SongNote :=
  match v with
  | JVal.jobj fields =>
    { note := match fields.lookup "note" with | some (JVal.jstr s) => s | _ => ""
      duration := match fields.lookup "duration" with | some (JVal.jnum q) => q | _ => 0
      startTime := match fields.lookup "startTime" with | some (JVal.jnum q) => q | _ => 0 }
  | _ => { note := "", duration := 0, startTime := 0 }

/-- Validation pipeline of the first `getSongNotes` variant
(src/unnamed/part_000:74-96): reject non-arrays, reject the empty array,
reject arrays with invalid elements. -/
def getSongNotesV1 (parsed : JVal) : Option (List SongNote) :=
  match parsed with
  | JVal.jarr notes =>
    if notes.length = 0 then none
    else if notes.all isValidNoteObj then some (notes.map toSongNote)
    else none
  | _ => none

/-- Element check of the second variant's fallback path: the three fields
present (`in`), with no type check. -/
def hasAllFields (v : JVal) : Bool :=
  match v with
  | JVal.jobj fields =>
    (fields.lookup "note").isSome && (fields.lookup "duration").isSome &&
    (fields.lookup "startTime").isSome
  | _ => false

/-- First-element check of the second variant's direct path:
`'note' in notes[0]`. -/
def hasNoteField (v : JVal) : Bool :=
  match v with
  | JVal.jobj fields => (fields.lookup "note").isSome
  | _ => false

/-- Validation pipeline of the second `getSongNotes` variant
(src/unnamed/part_000:180-214): accept a non-empty array whose first element
has a `note` field (direct path), else a non-empty array all of whose
elements have the three fields (fallback path), else null. -/
def getSongNotesV2 (parsed : JVal) : Option (List SongNote) :=
  match parsed with
  | JVal.jarr notes =>
    if 0 < notes.length ∧ (match notes.head? with
                           | some h => hasNoteField h
                           | none => false) = true then
      some (notes.map toSongNote)
    else if 0 < notes.length ∧ notes.all hasAllFields = true then
      some (notes.map toSongNote)
    else none
  | _ => none

/-- `handleLoad` (src/App.tsx:394-424) summarised at its final state:
clear the song and reset playback, then install the generated song (LOADED)
on a non-null result, or go to ERROR on a null result or a thrown
configuration error. -/
def handleLoadModel (result : Except Unit (Option (List SongNote)))
    (st : EngineState) : EngineState :=
  let st1 := resetPlayback { st with song := none, completionMessage := none }
  match result with
  | Except.ok (some notes) => { st1 with song := some notes, appState := AppState.LOADED }
  | Except.ok none => { st1 with appState := AppState.ERROR }
  | Except.error _ => { st1 with appState := AppState.ERROR }

/-- "The cursor points at a non-rest note or past the end" (the Learning
Cursor well-formedness predicate). -/
def cursorOk (song : List SongNote) (i : ℕ) : Prop :=
  ∀ n, song.get? i = some n → n.note ≠ "Rest"

/-- Absolute perf-clock fire instants (with payload) of the armed highlight
timers, for a plan whose timers were armed at perf instant `basePerf`. -/
def highlightFireTimesAbs (basePerf : ℚ) (timers : List UiTimer) :
    List (ℚ × String × ℚ) :=
  timers.filterMap (fun tm =>
    match tm with
    | UiTimer.highlight d n s => some (basePerf + d, n, s)
    | UiTimer.endOfSong _ => none)

/-- Absolute perf-clock fire instants of the armed end-of-song timers. -/
def endFireTimesAbs (basePerf : ℚ) (timers : List UiTimer) : List ℚ :=
  timers.filterMap (fun tm =>
    match tm with
    | UiTimer.endOfSong d => some (basePerf + d)
    | UiTimer.highlight _ _ _ => none)

/-- An `Except` computation that did not raise. -/
def isOkE {α : Type} (r : Except String α) : Prop :=
  ∃ a, r = Except.ok a

/-! ### Helper lemmas -/

lemma stopTonesTryE_ok (audioNow : ℚ) (l : List ScheduledTone) :
    stopTonesTryE audioNow l = Except.ok () := by
  induction l with
  | nil => rfl
  | cons t rest ih =>
    unfold stopTonesTryE
    cases hE : oscStopE (audioNow + 1/20) t.osc <;> simpa [hE] using ih

lemma stopManualNodesE_ok (audioNow : ℚ) (l : List (String × OscNode))
    (h : ∀ pn ∈ l, pn.2.started = true) :
    stopManualNodesE audioNow l = Except.ok () := by
  induction l with
  | nil => rfl
  | cons pn rest ih =>
    have h1 : pn.2.started = true := h pn (by simp)
    unfold stopManualNodesE
    simpa [oscStopE, h1] using ih (fun x hx => h x (by simp [hx]))

lemma lookup_map_update (l : List (String × OscNode)) (note : String) (t : ℚ) :
    (l.map (fun pn =>
        if pn.1 = note then (pn.1, { pn.2 with stopTime := some t }) else pn)).lookup note
      = (l.lookup note).map (fun n => { n with stopTime := some t }) := by
  induction l with
  | nil => rfl
  | cons pn rest ih =>
    obtain ⟨k, v⟩ := pn
    simp only [List.map]
    by_cases hk : k = note
    · rw [if_pos hk]
      subst hk
      simp [List.lookup, ih]
    · rw [if_neg hk]
      have hbeq : (note == k) = false := by
        simpa [beq_iff_eq] using fun h => hk h.symm
      simp [List.lookup, hbeq, ih]

lemma stopNoteE_ok_of_started (audioNow : ℚ) (st : EngineState) (note : String)
    (h : ∀ n, st.manualNodes.lookup note = some n → n.started = true) :
    isOkE (stopNoteE audioNow st note) := by
  unfold stopNoteE
  cases hl : st.manualNodes.lookup note with
  | none => exact ⟨st, rfl⟩
  | some n =>
    have hst := h n hl
    simp only [oscStopE, hst, if_true]
    exact ⟨_, rfl⟩

lemma mem_of_lookup_eq_some {l : List (String × OscNode)} {note : String}
    {n : OscNode} (h : l.lookup note = some n) : (note, n) ∈ l := by
  induction l with
  | nil => simp [List.lookup] at h
  | cons pn rest ih =>
    obtain ⟨k, v⟩ := pn
    by_cases hk : note = k
    · subst hk
      simp [List.lookup] at h
      simp [h]
    · have hbeq : (note == k) = false := by simpa [beq_iff_eq] using hk
      simp only [List.lookup, hbeq] at h
      exact List.mem_cons_of_mem _ (ih h)

/-! ### C1 -/

/-- The song and Playing state used to exhibit the speed-change
discontinuity. -/
def speedSong : List SongNote :=
  [{ note := "C4", duration := 500, startTime := 0 },
   { note := "D4", duration := 500, startTime := 1000 }]

/-- A Playing state: anchor 0 ms, accumulated 0 ms, speed 1.0, plan built
from offset 0. -/
def speedState : EngineState :=
  { initialState with
      appState := AppState.PLAYING
      song := some speedSong
      playbackSpeed := 1
      playbackStartTime := 0
      playbackProgressRef := 0
      scheduledNodes := buildTones speedSong 0 1 0
      scheduledUiCallbacks := buildUiTimers speedSong 0 1 ++ [UiTimer.endOfSong 1600] }

/-- C1: changing the speed from 1.0 to 2.0 while Playing, 100 ms of wall
clock after the anchor, does NOT preserve the derived elapsed time.  Before
the change the derived elapsed time (interval scaled by the multiplier in
force, 1.0) is 100 ms; the speed-change effect recomputes the progress with
the already-updated multiplier (2.0) and captures 200 ms, so the derived
value immediately after the change is 200 ms, a 100 ms forward jump. -/
theorem speed_change_discontinuity :
    derivedElapsed 100 speedState = 100 ∧
    (changeSpeed 2 100 (1/10) speedState).playbackProgressRef = 200 ∧
    derivedElapsed 100 (changeSpeed 2 100 (1/10) speedState) = 200 := by
  refine ⟨?_, ?_, ?_⟩ <;>
    norm_num [derivedElapsed, changeSpeed, setSpeed, speedChangeEffect, scheduleSong,
      stopAllSounds, speedState, speedSong, initialState, List.getLast?]

/-! ### C2 -/

/-- C2 counterexample: from the initial Idle state (no song loaded), the
play/pause control is not a no-op — it sets the transport state to
PLAYING. -/
theorem play_pause_idle_cex :
    initialState.appState = AppState.IDLE ∧ initialState.song = none ∧
    (handlePlayPause 5 3 initialState).appState = AppState.PLAYING := by
  decide

/-- C2 amended: invoking the play/pause control while Idle with no song
loaded leaves progress, highlight, active notes, scheduled nodes, timers and
manual nodes unchanged (the schedule builder early-returns on a null song),
but it re-anchors the clock to now and sets the transport state to PLAYING:
the no-op guarantee holds for the plan and progress state only, not for the
transport state. -/
theorem play_pause_idle_amended (st : EngineState) (nowPerf audioNow : ℚ)
    (hIdle : st.appState = AppState.IDLE) (hSong : st.song = none) :
    handlePlayPause nowPerf audioNow st =
      { st with playbackStartTime := nowPerf, appState := AppState.PLAYING } := by
  simp [handlePlayPause, scheduleSong, hIdle, hSong]

/-- Witness for the amended C2 at the initial state. -/
theorem play_pause_idle_amended_witness :
    handlePlayPause 5 3 initialState =
      { initialState with playbackStartTime := 5, appState := AppState.PLAYING } :=
  play_pause_idle_amended initialState 5 3 rfl rfl

/-! ### C9 -/

/-- A one-note song used for the reachability chain. -/
def pauseSong : List SongNote := [{ note := "C4", duration := 500, startTime := 0 }]

/-- C9 counterexample: load a song, play at t=0, pause at t=100 — the paused
state has empty Active Notes — then press a key while still Paused: the state
is still PAUSED but the Active Notes set is now non-empty, so "in every
reachable Paused state the Active Notes set is empty" is false (the Piano
input is not gated by the transport state). -/
theorem paused_active_notes_cex :
    (handlePlayPause 100 (1/10)
        (handlePlayPause 0 0 (handleLoadModel (Except.ok (some pauseSong))
          initialState))).appState = AppState.PAUSED ∧
    (handlePlayPause 100 (1/10)
        (handlePlayPause 0 0 (handleLoadModel (Except.ok (some pauseSong))
          initialState))).activeNotes = ∅ ∧
    (onNoteDown "C4" (handlePlayPause 100 (1/10)
        (handlePlayPause 0 0 (handleLoadModel (Except.ok (some pauseSong))
          initialState)))).appState = AppState.PAUSED ∧
    (onNoteDown "C4" (handlePlayPause 100 (1/10)
        (handlePlayPause 0 0 (handleLoadModel (Except.ok (some pauseSong))
          initialState)))).activeNotes ≠ ∅ := by
  decide

/-- C9 amended: the pause transition itself does tear down every manually
held note along with the scheduled plan — immediately after any pause call
the manual-node map and the Active Notes set are both empty — but manual
input remains accepted while Paused, so a later key press can make the
Active Notes set non-empty without leaving the Paused state. -/
theorem pause_clears_manual_state (st : EngineState) (nowPerf audioNow : ℚ)
    (h : st.appState = AppState.PLAYING) :
    (handlePlayPause nowPerf audioNow st).appState = AppState.PAUSED ∧
    (handlePlayPause nowPerf audioNow st).manualNodes = [] ∧
    (handlePlayPause nowPerf audioNow st).activeNotes = ∅ := by
  simp [handlePlayPause, h, stopAllSounds]

/-- A Playing state holding one manual note, to witness the amended C9. -/
def playingWithManualNote : EngineState :=
  { initialState with
      appState := AppState.PLAYING
      song := some pauseSong
      manualNodes := [("E4", { freq := noteFreq "E4", started := true, stopTime := none })]
      activeNotes := {"E4"} }

/-- Witness for the amended C9. -/
theorem pause_clears_manual_state_witness :
    (handlePlayPause 50 1 playingWithManualNote).appState = AppState.PAUSED ∧
    (handlePlayPause 50 1 playingWithManualNote).manualNodes = [] ∧
    (handlePlayPause 50 1 playingWithManualNote).activeNotes = ∅ :=
  pause_clears_manual_state playingWithManualNote 50 1 rfl

/-! ### C7 -/

/-- C7: teardown and stop are error-free and idempotent.  (1) `stopAllSounds`
never raises: errors from stopping scheduled nodes are caught, and every
manual node has been started, so its (uncaught) stop cannot raise either.
(2) Running teardown again — at any later time — raises nothing and changes
nothing.  (3) Teardown is idempotent, and (4) on a state with nothing active
it is the identity.  (5) Stopping a note that is not held is a no-op, and
(6) stopping an already-stopped manual note raises nothing (a repeated
`oscillator.stop` merely reschedules the stop time). -/
theorem stop_teardown_safe (audioNow audioNow2 : ℚ) (st : EngineState)
    (hStarted : ∀ pn ∈ st.manualNodes, pn.2.started = true) :
    stopAllSoundsE audioNow st = Except.ok (stopAllSounds st) ∧
    stopAllSoundsE audioNow2 (stopAllSounds st) = Except.ok (stopAllSounds st) ∧
    stopAllSounds (stopAllSounds st) = stopAllSounds st ∧
    (st.scheduledNodes = [] → st.scheduledUiCallbacks = [] → st.manualNodes = [] →
      st.activeNotes = ∅ → stopAllSounds st = st) ∧
    (∀ note, st.manualNodes.lookup note = none →
      stopNoteE audioNow st note = Except.ok st) ∧
    (∀ note, isOkE (stopNoteE audioNow2 (stopNote audioNow st note) note)) := by
  refine ⟨?_, ?_, ?_, ?_, ?_, ?_⟩
  · unfold stopAllSoundsE
    rw [stopTonesTryE_ok, stopManualNodesE_ok audioNow st.manualNodes hStarted]
  · unfold stopAllSoundsE
    rw [show (stopAllSounds st).scheduledNodes = [] from rfl,
        show (stopAllSounds st).manualNodes = [] from rfl]
    simp [stopTonesTryE, stopManualNodesE, stopAllSounds]
  · simp [stopAllSounds]
  · intro h1 h2 h3 h4
    simp [stopAllSounds, ← h1, ← h2, ← h3, ← h4]
  · intro note hnone
    simp [stopNoteE, hnone]
  · intro note
    apply stopNoteE_ok_of_started
    intro m hm
    cases hl : st.manualNodes.lookup note with
    | none =>
      exact Option.noConfusion (by simpa only [stopNote, hl] using hm)
    | some n =>
      have hst : n.started = true := hStarted (note, n) (mem_of_lookup_eq_some hl)
      simp only [stopNote, hl, lookup_map_update, Option.map_some',
        Option.some.injEq] at hm
      rw [← hm]
      exact hst

/-- An active state (one scheduled tone, two timers, one held note) to
witness C7. -/
def teardownState : EngineState :=
  { initialState with
      appState := AppState.PLAYING
      song := some pauseSong
      scheduledNodes :=
        [{ pitch := "C4", startAt := 0, stopAt := 1/2,
           osc := { freq := noteFreq "C4", started := true, stopTime := some (1/2) } }]
      scheduledUiCallbacks := [UiTimer.highlight 0 "C4" 0, UiTimer.endOfSong 600]
      manualNodes := [("E4", { freq := noteFreq "E4", started := true, stopTime := none })]
      activeNotes := {"E4"} }

/-- Witness for C7: the teardown of the active state raises nothing and
returns the torn-down state. -/
theorem stop_teardown_safe_witness :
    stopAllSoundsE 2 teardownState = Except.ok (stopAllSounds teardownState) :=
  (stop_teardown_safe 2 3 teardownState (by decide)).1

/-! ### skipRests lemmas -/

lemma drop_succ_of_drop_cons {song : List SongNote} {i : ℕ} {a : SongNote}
    {rest : List SongNote} (h : song.drop i = a :: rest) :
    song.drop (i + 1) = rest := by
  rw [← List.tail_drop, h]
  rfl

lemma get?_of_drop_cons {song : List SongNote} {i : ℕ} {a : SongNote}
    {rest : List SongNote} (h : song.drop i = a :: rest) :
    song.get? i = some a := by
  have h0 := List.getElem?_drop song i 0
  rw [h] at h0
  simpa using h0.symm

lemma skipRestsFrom_spec (song : List SongNote) :
    ∀ (l : List SongNote) (i : ℕ), l = song.drop i →
      (∀ n, song.get? (skipRestsFrom l i) = some n → n.note ≠ "Rest") ∧
      (∀ j, i ≤ j → j < skipRestsFrom l i →
        ∃ n, song.get? j = some n ∧ n.note = "Rest") ∧
      (∀ j n, i ≤ j → song.get? j = some n → n.note ≠ "Rest" →
        skipRestsFrom l i ≤ j) ∧
      i ≤ skipRestsFrom l i := by
  intro l
  induction l with
  | nil =>
    intro i hd
    refine ⟨?_, ?_, ?_, le_refl i⟩
    · intro n hn
      have hlen : song.length ≤ i := by
        have hc := congrArg List.length hd
        simp [List.length_drop] at hc
        omega
      rw [show skipRestsFrom [] i = i from rfl, List.get?_eq_none.mpr hlen] at hn
      exact Option.noConfusion hn
    · intro j hij hlt
      simp only [skipRestsFrom] at hlt
      omega
    · intro j n hij _ _
      simpa [skipRestsFrom] using hij
  | cons a rest ih =>
    intro i hd
    have ha : song.get? i = some a := get?_of_drop_cons hd.symm
    have hrest : song.drop (i + 1) = rest := drop_succ_of_drop_cons hd.symm
    by_cases hr : a.note = "Rest"
    · have heq : skipRestsFrom (a :: rest) i = skipRestsFrom rest (i + 1) := by
        simp [skipRestsFrom, hr]
      obtain ⟨ih1, ih2, ih3, ih4⟩ := ih (i + 1) hrest.symm
      refine ⟨?_, ?_, ?_, ?_⟩
      · rw [heq]; exact ih1
      · intro j hij hlt
        rw [heq] at hlt
        rcases Nat.eq_or_lt_of_le hij with rfl | hlt2
        · exact ⟨a, ha, hr⟩
        · exact ih2 j (by omega) hlt
      · intro j n hij hj hnr
        rw [heq]
        have hne : i ≠ j := by
          rintro rfl
          rw [ha] at hj
          exact hnr (Option.some.inj hj ▸ hr)
        exact ih3 j n (by omega) hj hnr
      · rw [heq]
        exact le_trans (by omega) ih4
    · have heq : skipRestsFrom (a :: rest) i = i := by simp [skipRestsFrom, hr]
      refine ⟨?_, ?_, ?_, ?_⟩
      · intro n hn
        rw [heq, ha] at hn
        rw [← Option.some.inj hn]
        exact hr
      · intro j hij hlt
        rw [heq] at hlt
        omega
      · intro j n hij _ _
        rw [heq]
        exact hij
      · rw [heq]

/-- The index where the skip loop stops never carries a rest. -/
lemma skipRests_not_rest (song : List SongNote) (i : ℕ) :
    cursorOk song (skipRests song i) :=
  fun n hn => (skipRestsFrom_spec song (song.drop i) i rfl).1 n hn

/-- Every index the skip loop stepped over carries a rest. -/
lemma skipRests_rests_before (song : List SongNote) (i : ℕ) :
    ∀ j, i ≤ j → j < skipRests song i →
      ∃ n, song.get? j = some n ∧ n.note = "Rest" :=
  (skipRestsFrom_spec song (song.drop i) i rfl).2.1

/-- The skip loop stops at or before any non-rest index at or after the
start. -/
lemma skipRests_le (song : List SongNote) (i : ℕ) :
    ∀ j n, i ≤ j → song.get? j = some n → n.note ≠ "Rest" →
      skipRests song i ≤ j :=
  (skipRestsFrom_spec song (song.drop i) i rfl).2.2.1

/-- The skip loop never moves backwards. -/
lemma le_skipRests (song : List SongNote) (i : ℕ) : i ≤ skipRests song i :=
  (skipRestsFrom_spec song (song.drop i) i rfl).2.2.2

/-! ### Projection helpers -/

lemma playNote_learningNoteIndex (st : EngineState) (note : String) :
    (playNote st note).learningNoteIndex = st.learningNoteIndex := by
  unfold playNote
  split <;> rfl

lemma resetPlayback_proj (st : EngineState) :
    (resetPlayback st).song = st.song ∧
    (resetPlayback st).learningNoteIndex = st.learningNoteIndex ∧
    (resetPlayback st).scheduledUiCallbacks = [] ∧
    (resetPlayback st).scheduledNodes = [] ∧
    (resetPlayback st).manualNodes = [] ∧
    (resetPlayback st).activeNotes = ∅ ∧
    (resetPlayback st).playbackProgressRef = 0 ∧
    (resetPlayback st).playbackSpeed = st.playbackSpeed ∧
    (resetPlayback st).playbackStartTime = st.playbackStartTime ∧
    (resetPlayback st).highlightedNote = none ∧
    (resetPlayback st).highlightedStartTime = none := by
  unfold resetPlayback stopAllSounds
  split <;>
    exact ⟨rfl, rfl, rfl, rfl, rfl, rfl, rfl, rfl, rfl, rfl, rfl⟩

lemma onNoteDown_not_learning (st : EngineState) (note : String)
    (hA : st.appState ≠ AppState.LEARNING) :
    onNoteDown note st = playNote st note := by
  cases hA2 : st.appState
  case LEARNING => exact absurd hA2 hA
  all_goals simp [onNoteDown, hA2]

/-! ### C3 -/

/-- A song whose first non-rest index is 1, in Learning mode at the final
real note: pressing it completes the song. -/
def restSong : List SongNote :=
  [{ note := "Rest", duration := 500, startTime := 0 },
   { note := "C4", duration := 500, startTime := 500 }]

/-- Learning mode on `restSong`, cursor at the final (non-rest) note. -/
def learnEndState : EngineState :=
  { initialState with
      appState := AppState.LEARNING
      song := some restSong
      learningNoteIndex := 1 }

/-- C3 counterexample: completing `restSong` emits the completion signal and,
after the delay, returns to LOADED — but the cursor is reset to 0, while the
first non-rest index of the song is 1, so the cursor is NOT reset to the
first non-rest index. -/
theorem completion_reset_cex :
    (onNoteDown "C4" learnEndState).completionMessage.isSome = true ∧
    (fireCompletionTimeout (onNoteDown "C4" learnEndState)).appState = AppState.LOADED ∧
    (fireCompletionTimeout (onNoteDown "C4" learnEndState)).learningNoteIndex = 0 ∧
    skipRests restSong 0 = 1 ∧
    (fireCompletionTimeout (onNoteDown "C4" learnEndState)).learningNoteIndex ≠
      skipRests restSong 0 := by
  decide

/-- C3 amended: when a correct key press in Learning mode advances the cursor
past the end of the song, the engine posts the completion message and, after
the delay, the transport state returns to LOADED, the completion message is
cleared and the Learning Cursor is reset to index 0 — not to the first
non-rest index (which is recomputed on the next entry into Learning mode). -/
theorem completion_resets_cursor_to_zero (st : EngineState)
    (song : List SongNote) (note : String) (cur : SongNote)
    (hA : st.appState = AppState.LEARNING) (hS : st.song = some song)
    (hcur : song.get? st.learningNoteIndex = some cur) (hmatch : note = cur.note)
    (hend : song.length ≤ skipRests song (st.learningNoteIndex + 1)) :
    (onNoteDown note st).completionMessage.isSome = true ∧
    (fireCompletionTimeout (onNoteDown note st)).appState = AppState.LOADED ∧
    (fireCompletionTimeout (onNoteDown note st)).learningNoteIndex = 0 ∧
    (fireCompletionTimeout (onNoteDown note st)).completionMessage = none := by
  have hnd : onNoteDown note st =
      { playNote st note with
          correctPressNote := some note
          completionMessage := some "Congratulations!" } := by
    simp only [onNoteDown, hA, hS, hcur, if_pos hmatch]
    rw [if_pos hend]
  rw [hnd]
  exact ⟨rfl, rfl, rfl, rfl⟩

/-- Witness for the amended C3 at the concrete two-note song. -/
theorem completion_resets_cursor_witness :
    (onNoteDown "C4" learnEndState).completionMessage.isSome = true ∧
    (fireCompletionTimeout (onNoteDown "C4" learnEndState)).appState = AppState.LOADED ∧
    (fireCompletionTimeout (onNoteDown "C4" learnEndState)).learningNoteIndex = 0 ∧
    (fireCompletionTimeout (onNoteDown "C4" learnEndState)).completionMessage = none :=
  completion_resets_cursor_to_zero learnEndState restSong "C4"
    { note := "C4", duration := 500, startTime := 500 }
    rfl rfl (by decide) (by decide) (by decide)

/-! ### C5 -/

/-- A Learning state whose cursor points at a rest (index 0 of `restSong`);
this configuration is unreachable through the engine itself and is built
directly. -/
def restTargetState : EngineState :=
  { initialState with
      appState := AppState.LEARNING
      song := some restSong
      learningNoteIndex := 0 }

/-- C5 counterexample: with a rest at the cursor, the engine does NOT
auto-advance: the no-input learning-highlight effect leaves the cursor in
place, and a key press on the upcoming real note is rejected as a mismatch
(cursor unchanged, "incorrect" pulse emitted). -/
theorem rest_target_no_auto_advance_cex :
    restSong.get? 0 = some { note := "Rest", duration := 500, startTime := 0 } ∧
    (learningHighlightEffect restTargetState).learningNoteIndex = 0 ∧
    (onNoteDown "C4" restTargetState).learningNoteIndex = 0 ∧
    (onNoteDown "C4" restTargetState).incorrectPressNote = some "C4" := by
  decide

/-- C5 amended: the engine has no rest auto-advance; instead rest targets
never arise.  (1) Entering Learning mode initialises the cursor to an index
that does not carry a rest (or past the end); (2) every key press preserves
that invariant — the cursor only moves to rest-free indices; (3) if a rest is
at the cursor (a state the engine itself never produces), a key press on any
real note leaves the cursor unchanged. -/
theorem rest_target_amended :
    (∀ (st : EngineState) (song : List SongNote),
      st.appState ≠ AppState.LEARNING → st.song = some song →
      cursorOk song (handleToggleLearning st).learningNoteIndex) ∧
    (∀ (st : EngineState) (song : List SongNote) (note : String),
      st.song = some song → cursorOk song st.learningNoteIndex →
      cursorOk song (onNoteDown note st).learningNoteIndex) ∧
    (∀ (st : EngineState) (song : List SongNote) (n : SongNote) (note : String),
      st.appState = AppState.LEARNING → st.song = some song →
      song.get? st.learningNoteIndex = some n → n.note = "Rest" → note ≠ "Rest" →
      (onNoteDown note st).learningNoteIndex = st.learningNoteIndex) := by
  refine ⟨?_, ?_, ?_⟩
  · intro st song hA hS
    have h1 : (handleToggleLearning st).learningNoteIndex = skipRests song 0 := by
      simp [handleToggleLearning, hA, hS]
    rw [h1]
    exact skipRests_not_rest song 0
  · intro st song note hS hOk
    by_cases hA : st.appState = AppState.LEARNING
    · cases hget : song.get? st.learningNoteIndex with
      | none =>
        simp only [onNoteDown, hA, hS, hget]
        exact hOk
      | some cur =>
        by_cases hm : note = cur.note
        · by_cases hend : song.length ≤ skipRests song (st.learningNoteIndex + 1)
          · have h1 : (onNoteDown note st).learningNoteIndex =
                st.learningNoteIndex := by
              simp only [onNoteDown, hA, hS, hget, if_pos hm]
              rw [if_pos hend]
              exact playNote_learningNoteIndex st note
            rw [h1]
            exact hOk
          · have h1 : (onNoteDown note st).learningNoteIndex =
                skipRests song (st.learningNoteIndex + 1) := by
              simp only [onNoteDown, hA, hS, hget, if_pos hm]
              rw [if_neg hend]
            rw [h1]
            exact skipRests_not_rest song _
        · simp only [onNoteDown, hA, hS, hget, if_neg hm]
          exact hOk
    · rw [onNoteDown_not_learning st note hA, playNote_learningNoteIndex]
      exact hOk
  · intro st song n note hA hS hget hr hnr
    have hm : ¬ note = n.note := by
      rw [hr]
      exact hnr
    simp only [onNoteDown, hA, hS, hget, if_neg hm]

/-- A LOADED state holding `restSong`, to witness the amended C5. -/
def loadedRestState : EngineState :=
  { initialState with appState := AppState.LOADED, song := some restSong }

/-- Witness for the amended C5: entering Learning mode on a song with a
leading rest yields a rest-free cursor. -/
theorem rest_target_amended_witness :
    cursorOk restSong (handleToggleLearning loadedRestState).learningNoteIndex :=
  rest_target_amended.1 loadedRestState restSong (by decide) rfl

/-! ### C8 -/

/-- C8: on a song that has a real note somewhere (hypotheses: some index `j`
carries a non-rest note), entering Learning mode from a non-Learning state
with a song loaded puts the transport in LEARNING with the cursor at
`skipRests song 0` — an index that carries a non-rest note and is preceded
only by rests, i.e. the index of the first non-rest note — and the highlight
effect then sets the Highlighted Note Info to that note directly, with no
armed UI timer. -/
theorem enter_learning_first_nonrest (st : EngineState) (song : List SongNote)
    (j : ℕ) (nj : SongNote)
    (hA : st.appState ≠ AppState.LEARNING) (hS : st.song = some song)
    (hj : song.get? j = some nj) (hnr : nj.note ≠ "Rest") :
    ∃ n0, song.get? (skipRests song 0) = some n0 ∧ n0.note ≠ "Rest" ∧
      (∀ k, k < skipRests song 0 → ∃ m, song.get? k = some m ∧ m.note = "Rest") ∧
      (learningHighlightEffect (handleToggleLearning st)).appState = AppState.LEARNING ∧
      (learningHighlightEffect (handleToggleLearning st)).learningNoteIndex =
        skipRests song 0 ∧
      (learningHighlightEffect (handleToggleLearning st)).highlightedNote =
        some n0.note ∧
      (learningHighlightEffect (handleToggleLearning st)).highlightedStartTime =
        some n0.startTime ∧
      (learningHighlightEffect (handleToggleLearning st)).scheduledUiCallbacks = [] := by
  have hjlen : j < song.length := by
    by_contra hc
    rw [List.get?_eq_none.mpr (le_of_not_lt hc)] at hj
    exact Option.noConfusion hj
  have hle : skipRests song 0 ≤ j := skipRests_le song 0 j nj (Nat.zero_le j) hj hnr
  have hi : skipRests song 0 < song.length := lt_of_le_of_lt hle hjlen
  have hn0 : song.get? (skipRests song 0) = some (song.get ⟨skipRests song 0, hi⟩) :=
    List.get?_eq_get hi
  refine ⟨song.get ⟨skipRests song 0, hi⟩, hn0, skipRests_not_rest song _ _ hn0, ?_, ?_⟩
  · intro k hk
    exact skipRests_rests_before song 0 k (Nat.zero_le k) hk
  · have hT : handleToggleLearning st =
        { resetPlayback st with
            completionMessage := none
            learningNoteIndex := skipRests song 0
            appState := AppState.LEARNING } := by
      simp [handleToggleLearning, hA, hS]
    have hTsong : (handleToggleLearning st).song = some song := by
      rw [hT]
      show (resetPlayback st).song = some song
      rw [(resetPlayback_proj st).1, hS]
    have hTapp : (handleToggleLearning st).appState = AppState.LEARNING := by
      rw [hT]
    have hTidx : (handleToggleLearning st).learningNoteIndex = skipRests song 0 := by
      rw [hT]
    have hTui : (handleToggleLearning st).scheduledUiCallbacks = [] := by
      rw [hT]
      show (resetPlayback st).scheduledUiCallbacks = []
      exact (resetPlayback_proj st).2.2.1
    have hE : learningHighlightEffect (handleToggleLearning st) =
        { handleToggleLearning st with
            highlightedNote := some (song.get ⟨skipRests song 0, hi⟩).note
            highlightedStartTime := some (song.get ⟨skipRests song 0, hi⟩).startTime } := by
      simp only [learningHighlightEffect, hTapp, hTsong, hTidx, hn0]
    rw [hE]
    exact ⟨hTapp, hTidx, rfl, rfl, hTui⟩

/-- A three-note song beginning with two consecutive rests. -/
def doubleRestSong : List SongNote :=
  [{ note := "Rest", duration := 500, startTime := 0 },
   { note := "Rest", duration := 500, startTime := 500 },
   { note := "C4", duration := 500, startTime := 1000 }]

/-- A LOADED state holding `doubleRestSong`. -/
def loadedDoubleRestState : EngineState :=
  { initialState with appState := AppState.LOADED, song := some doubleRestSong }

/-- Witness for C8 on the two-leading-rests song. -/
theorem enter_learning_first_nonrest_witness :
    ∃ n0, doubleRestSong.get? (skipRests doubleRestSong 0) = some n0 ∧
      n0.note ≠ "Rest" ∧
      (∀ k, k < skipRests doubleRestSong 0 →
        ∃ m, doubleRestSong.get? k = some m ∧ m.note = "Rest") ∧
      (learningHighlightEffect (handleToggleLearning loadedDoubleRestState)).appState =
        AppState.LEARNING ∧
      (learningHighlightEffect (handleToggleLearning loadedDoubleRestState)).learningNoteIndex =
        skipRests doubleRestSong 0 ∧
      (learningHighlightEffect (handleToggleLearning loadedDoubleRestState)).highlightedNote =
        some n0.note ∧
      (learningHighlightEffect (handleToggleLearning loadedDoubleRestState)).highlightedStartTime =
        some n0.startTime ∧
      (learningHighlightEffect (handleToggleLearning loadedDoubleRestState)).scheduledUiCallbacks =
        [] :=
  enter_learning_first_nonrest loadedDoubleRestState doubleRestSong 2
    { note := "C4", duration := 500, startTime := 1000 }
    (by decide) rfl (by decide) (by decide)

/-! ### C4 -/

lemma keptNotes_nil_of_all_lt (song : List SongNote) (offset : ℚ)
    (h : ∀ n ∈ song, n.startTime < offset) :
    keptNotes song offset = [] := by
  unfold keptNotes
  rw [List.filter_eq_nil_iff]
  intro a ha
  simp [h a ha]

/-- C4 amended: for a song every one of whose notes starts strictly before
the offset, `scheduleSong` arms no tone sources and no per-note highlight
timers; when the song is non-empty it nevertheless arms exactly one
(terminal) timer and leaves the transport state unchanged — the transition
to LOADED happens only when that timer fires — while only a zero-note song
transitions to LOADED immediately, with no armed timer at all. -/
theorem schedule_past_end_amended (st : EngineState) (song : List SongNote)
    (offset audioNow : ℚ) (hS : st.song = some song)
    (hall : ∀ n ∈ song, n.startTime < offset) :
    (scheduleSong audioNow offset st).scheduledNodes = [] ∧
    (∀ tm ∈ (scheduleSong audioNow offset st).scheduledUiCallbacks,
      ∃ d, tm = UiTimer.endOfSong d) ∧
    (song ≠ [] → (scheduleSong audioNow offset st).scheduledUiCallbacks.length = 1) ∧
    (song ≠ [] → (scheduleSong audioNow offset st).appState = st.appState) ∧
    (song = [] → (scheduleSong audioNow offset st).appState = AppState.LOADED ∧
      (scheduleSong audioNow offset st).scheduledUiCallbacks = []) ∧
    (fireEndTimeout (scheduleSong audioNow offset st)).appState = AppState.LOADED := by
  have hkept : keptNotes song offset = [] := keptNotes_nil_of_all_lt song offset hall
  have hui : buildUiTimers song offset st.playbackSpeed = [] := by
    simp [buildUiTimers, hkept]
  have htones : buildTones song offset st.playbackSpeed audioNow = [] := by
    simp [buildTones, hkept]
  cases hlast : song.getLast? with
  | none =>
    have hempty : song = [] := List.getLast?_eq_none_iff.mp hlast
    refine ⟨?_, ?_, ?_, ?_, ?_, ?_⟩ <;>
      simp [scheduleSong, hS, hlast, hui, htones, stopAllSounds, fireEndTimeout,
        hempty, buildUiTimers, buildTones, keptNotes]
  | some last =>
    have hnonempty : song ≠ [] := by
      intro hc
      rw [hc] at hlast
      exact Option.noConfusion hlast
    refine ⟨?_, ?_, ?_, ?_, ?_, ?_⟩ <;>
      simp [scheduleSong, hS, hlast, hui, htones, stopAllSounds, fireEndTimeout,
        hnonempty]

/-- A Playing state holding the one-note song, speed 1.0. -/
def pastEndState : EngineState :=
  { initialState with
      appState := AppState.PLAYING
      song := some pauseSong
      playbackSpeed := 1 }

/-- C4 counterexample: `pauseSong` is non-empty and the offset 1000 ms is
strictly greater than every note start time, yet `scheduleSong` does NOT
immediately transition to LOADED (the state stays PLAYING) and does arm one
timer (the terminal timeout), so the plan is not free of armed events. -/
theorem schedule_past_end_cex :
    (∀ n ∈ pauseSong, n.startTime < 1000) ∧
    (scheduleSong 0 1000 pastEndState).appState = AppState.PLAYING ∧
    (scheduleSong 0 1000 pastEndState).scheduledNodes = [] ∧
    (scheduleSong 0 1000 pastEndState).scheduledUiCallbacks.length = 1 := by
  have hd : decide ((0:ℚ) < 1000) = true := by
    rw [decide_eq_true_eq]
    norm_num
  have hkept : keptNotes pauseSong 1000 = [] := by
    simp [keptNotes, pauseSong, List.filter, hd]
  have hsong : pastEndState.song = some pauseSong := rfl
  have happ : pastEndState.appState = AppState.PLAYING := rfl
  have hspeed : pastEndState.playbackSpeed = 1 := rfl
  have hlast : pauseSong.getLast? =
      some { note := "C4", duration := 500, startTime := 0 } := rfl
  refine ⟨?_, ?_, ?_, ?_⟩
  · intro n hn
    simp only [pauseSong, List.mem_singleton] at hn
    rw [hn]
    norm_num
  · simp [scheduleSong, hsong, hlast, stopAllSounds, happ]
  · simp [scheduleSong, hsong, hlast, stopAllSounds, buildTones, hspeed, hkept]
  · simp [scheduleSong, hsong, hlast, stopAllSounds, buildUiTimers, hspeed, hkept]

/-- Witness for the amended C4 at the concrete past-the-end offset. -/
theorem schedule_past_end_amended_witness :
    (scheduleSong 0 1000 pastEndState).scheduledNodes = [] ∧
    (∀ tm ∈ (scheduleSong 0 1000 pastEndState).scheduledUiCallbacks,
      ∃ d, tm = UiTimer.endOfSong d) ∧
    (pauseSong ≠ [] →
      (scheduleSong 0 1000 pastEndState).scheduledUiCallbacks.length = 1) ∧
    (pauseSong ≠ [] →
      (scheduleSong 0 1000 pastEndState).appState = pastEndState.appState) ∧
    (pauseSong = [] →
      (scheduleSong 0 1000 pastEndState).appState = AppState.LOADED ∧
      (scheduleSong 0 1000 pastEndState).scheduledUiCallbacks = []) ∧
    (fireEndTimeout (scheduleSong 0 1000 pastEndState)).appState = AppState.LOADED :=
  schedule_past_end_amended pastEndState pauseSong 1000 0 rfl
    (by
      intro n hn
      simp only [pauseSong, List.mem_singleton] at hn
      rw [hn]
      norm_num)

/-! ### C10 -/

lemma getSongNotesV1_ne_nil (v : JVal) (notes : List SongNote)
    (h : getSongNotesV1 v = some notes) : notes ≠ [] := by
  cases v with
  | jarr items =>
    simp only [getSongNotesV1] at h
    by_cases h0 : items.length = 0
    · rw [if_pos h0] at h
      exact Option.noConfusion h
    · rw [if_neg h0] at h
      by_cases hv : items.all isValidNoteObj = true
      · rw [if_pos hv] at h
        have hn : notes = items.map toSongNote := (Option.some.inj h).symm
        intro hnil
        rw [hn] at hnil
        have hlen := congrArg List.length hnil
        simp at hlen
        exact h0 (by rw [hlen]; rfl)
      · rw [if_neg hv] at h
        exact Option.noConfusion h
  | jnull => simp [getSongNotesV1] at h
  | jbool b => simp [getSongNotesV1] at h
  | jnum q => simp [getSongNotesV1] at h
  | jstr s => simp [getSongNotesV1] at h
  | jobj fields => simp [getSongNotesV1] at h

lemma getSongNotesV2_ne_nil (v : JVal) (notes : List SongNote)
    (h : getSongNotesV2 v = some notes) : notes ≠ [] := by
  cases v with
  | jarr items =>
    simp only [getSongNotesV2] at h
    by_cases h1 : 0 < items.length ∧ (match items.head? with
        | some hd => hasNoteField hd
        | none => false) = true
    · rw [if_pos h1] at h
      have hn : notes = items.map toSongNote := (Option.some.inj h).symm
      intro hnil
      rw [hn] at hnil
      have hlen := congrArg List.length hnil
      simp at hlen
      rw [hlen] at h1
      simp at h1
    · rw [if_neg h1] at h
      by_cases h2 : 0 < items.length ∧ items.all hasAllFields = true
      · rw [if_pos h2] at h
        have hn : notes = items.map toSongNote := (Option.some.inj h).symm
        intro hnil
        rw [hn] at hnil
        have hlen := congrArg List.length hnil
        simp at hlen
        rw [hlen] at h2
        simp at h2
      · rw [if_neg h2] at h
        exact Option.noConfusion h
  | jnull => simp [getSongNotesV2] at h
  | jbool b => simp [getSongNotesV2] at h
  | jnum q => simp [getSongNotesV2] at h
  | jstr s => simp [getSongNotesV2] at h
  | jobj fields => simp [getSongNotesV2] at h

lemma handleLoadModel_installs_only_ok (r : Except Unit (Option (List SongNote)))
    (st : EngineState) (notes : List SongNote)
    (h : (handleLoadModel r st).song = some notes) : r = Except.ok (some notes) := by
  cases r with
  | ok o =>
    cases o with
    | some ns =>
      have hs : (handleLoadModel (Except.ok (some ns)) st).song = some ns := rfl
      rw [(hs.symm.trans h) |> Option.some.inj]
    | none =>
      exfalso
      have hn : (handleLoadModel (Except.ok none) st).song = none := by
        show (resetPlayback { st with song := none, completionMessage := none }).song = none
        rw [(resetPlayback_proj _).1]
      rw [hn] at h
      exact Option.noConfusion h
  | error e =>
    exfalso
    have hn : (handleLoadModel (Except.error e) st).song = none := by
      show (resetPlayback { st with song := none, completionMessage := none }).song = none
      rw [(resetPlayback_proj _).1]
    rw [hn] at h
    exact Option.noConfusion h

/-- C10: neither validation pipeline of `getSongNotes` ever returns an empty
note array (an empty or invalid parse yields null instead), and `handleLoad`
installs a song only from a non-null generator result; hence every installed
song is non-empty and `scheduleSong` can only take its zero-note
immediate-LOADED branch on a song that generation never produced. -/
theorem generated_song_never_empty :
    (∀ (v : JVal) (notes : List SongNote),
      getSongNotesV1 v = some notes → notes ≠ []) ∧
    (∀ (v : JVal) (notes : List SongNote),
      getSongNotesV2 v = some notes → notes ≠ []) ∧
    (∀ (r : Except Unit (Option (List SongNote))) (st : EngineState)
      (notes : List SongNote),
      (handleLoadModel r st).song = some notes → r = Except.ok (some notes)) ∧
    (∀ (v : JVal) (st : EngineState) (notes : List SongNote),
      (handleLoadModel (Except.ok (getSongNotesV1 v)) st).song = some notes →
      notes ≠ []) ∧
    (∀ (v : JVal) (st : EngineState) (notes : List SongNote),
      (handleLoadModel (Except.ok (getSongNotesV2 v)) st).song = some notes →
      notes ≠ []) := by
  refine ⟨getSongNotesV1_ne_nil, getSongNotesV2_ne_nil,
    handleLoadModel_installs_only_ok, ?_, ?_⟩
  · intro v st notes h
    have hr := handleLoadModel_installs_only_ok _ st notes h
    exact getSongNotesV1_ne_nil v notes (by exact Except.ok.inj hr)
  · intro v st notes h
    have hr := handleLoadModel_installs_only_ok _ st notes h
    exact getSongNotesV2_ne_nil v notes (by exact Except.ok.inj hr)

/-- A well-formed one-note generator response. -/
def validNoteJson : JVal :=
  JVal.jarr [JVal.jobj
    [("note", JVal.jstr "C4"), ("duration", JVal.jnum 500),
     ("startTime", JVal.jnum 0)]]

/-- Witness for C10: the concrete valid response parses to a non-empty song. -/
theorem generated_song_never_empty_witness :
    getSongNotesV1 validNoteJson =
      some [{ note := "C4", duration := 500, startTime := 0 }] ∧
    [{ note := "C4", duration := 500, startTime := 0 }] ≠ ([] : List SongNote) :=
  ⟨rfl, generated_song_never_empty.1 validNoteJson
    [{ note := "C4", duration := 500, startTime := 0 }] rfl⟩

/-! ### C6 helper lemmas -/

lemma not_lt_decide (x y : ℚ) : (!decide (x < y)) = decide (y ≤ x) := by
  rw [← decide_not, decide_eq_decide]
  exact not_lt

lemma mkTone_shift (o s b d : ℚ) (hs : s ≠ 0) (n : SongNote) :
    mkTone (o + d * s) s (b + d / 1000) n = mkTone o s b n := by
  unfold mkTone startTimeSec durationSec
  have h1 : b + d / 1000 + (n.startTime - (o + d * s)) / (1000 * s)
      = b + (n.startTime - o) / (1000 * s) := by
    field_simp
    ring
  rw [h1]

lemma mkTone_shift_funext (o s b d : ℚ) (hs : s ≠ 0) :
    mkTone (o + d * s) s (b + d / 1000) = mkTone o s b :=
  funext (mkTone_shift o s b d hs)

lemma tone_pending_iff (o s b d x : ℚ) (hs : 0 < s) :
    (b + d / 1000 ≤ b + (x - o) / (1000 * s)) ↔ (o + d * s ≤ x) := by
  rw [add_le_add_iff_left, div_le_div_iff (by norm_num) (by positivity)]
  constructor
  · intro h
    linarith
  · intro h
    linarith

lemma highlight_pending_iff (o s d x : ℚ) (hs : 0 < s) :
    (d ≤ (x - o) / (1000 * s) * 1000) ↔ (o + d * s ≤ x) := by
  rw [div_mul_eq_mul_div, le_div_iff (by positivity)]
  constructor
  · intro h
    linarith
  · intro h
    linarith

lemma tone_bool (o s b d x : ℚ) (hs : 0 < s) (hd : 0 ≤ d) :
    (!decide (x < o + d * s))
      = (decide (b + d / 1000 ≤ b + (x - o) / (1000 * s)) && !decide (x < o)) := by
  rw [not_lt_decide, not_lt_decide]
  by_cases hp : o + d * s ≤ x
  · have h1 : b + d / 1000 ≤ b + (x - o) / (1000 * s) :=
      (tone_pending_iff o s b d x hs).mpr hp
    have h2 : o ≤ x := by nlinarith
    simp [hp, h1, h2]
  · have h1 : ¬ (b + d / 1000 ≤ b + (x - o) / (1000 * s)) :=
      fun hc => hp ((tone_pending_iff o s b d x hs).mp hc)
    simp [hp, h1]

lemma highlight_bool (o s a d x : ℚ) (hs : 0 < s) (hd : 0 ≤ d) :
    (!decide (x < o + d * s))
      = (decide (a + d ≤ a + (x - o) / (1000 * s) * 1000) && !decide (x < o)) := by
  rw [not_lt_decide, not_lt_decide]
  by_cases hp : o + d * s ≤ x
  · have h1 : a + d ≤ a + (x - o) / (1000 * s) * 1000 := by
      rw [add_le_add_iff_left]
      exact (highlight_pending_iff o s d x hs).mpr hp
    have h2 : o ≤ x := by nlinarith
    simp [hp, h1, h2]
  · have h1 : ¬ (a + d ≤ a + (x - o) / (1000 * s) * 1000) := by
      rw [add_le_add_iff_left]
      exact fun hc => hp ((highlight_pending_iff o s d x hs).mp hc)
    simp [hp, h1]

lemma filterMap_map_none {α β γ : Type} (g : β → Option γ) (f : α → β)
    (l : List α) (h : ∀ x, g (f x) = none) : (l.map f).filterMap g = [] := by
  induction l with
  | nil => rfl
  | cons x xs ih => simp [h, ih]

lemma filterMap_map_some {α β γ : Type} (g : β → Option γ) (f : α → β)
    (h2 : α → γ) (l : List α) (h : ∀ x, g (f x) = some (h2 x)) :
    (l.map f).filterMap g = l.map h2 := by
  induction l with
  | nil => rfl
  | cons x xs ih => simp [h, ih]

lemma highlightAbs_buildUiTimers (base o s : ℚ) (song : List SongNote) :
    highlightFireTimesAbs base (buildUiTimers song o s)
      = (keptNotes song o).map
          (fun n => (base + startTimeSec s o n * 1000, n.note, n.startTime)) := by
  unfold highlightFireTimesAbs buildUiTimers
  exact filterMap_map_some _ _ _ _ (fun n => rfl)

lemma endAbs_buildUiTimers (base o s : ℚ) (song : List SongNote) :
    endFireTimesAbs base (buildUiTimers song o s) = [] := by
  unfold endFireTimesAbs buildUiTimers
  exact filterMap_map_none _ _ _ (fun n => rfl)

lemma buildTones_shift (song : List SongNote) (o s b d : ℚ)
    (hs : 0 < s) (hd : 0 ≤ d) :
    buildTones song (o + d * s) s (b + d / 1000)
      = (buildTones song o s b).filter
          (fun tone => decide (b + d / 1000 ≤ tone.startAt)) := by
  unfold buildTones keptNotes
  rw [mkTone_shift_funext o s b d (ne_of_gt hs)]
  rw [List.filter_map, List.filter_filter, List.filter_filter, List.filter_filter]
  congr 1
  apply List.filter_congr
  intro n _
  have hc : ((fun tone => decide (b + d / 1000 ≤ tone.startAt)) ∘ mkTone o s b) n
      = decide (b + d / 1000 ≤ b + (n.startTime - o) / (1000 * s)) := rfl
  rw [hc, tone_bool o s b d n.startTime hs hd]
  cases decide (b + d / 1000 ≤ b + (n.startTime - o) / (1000 * s)) <;>
    cases decide (n.note = "Rest") <;>
    cases decide (n.startTime < o) <;> rfl

lemma highlightAbs_shift (song : List SongNote) (o s a d : ℚ)
    (hs : 0 < s) (hd : 0 ≤ d) :
    highlightFireTimesAbs (a + d) (buildUiTimers song (o + d * s) s)
      = (highlightFireTimesAbs a (buildUiTimers song o s)).filter
          (fun e => decide (a + d ≤ e.1)) := by
  rw [highlightAbs_buildUiTimers, highlightAbs_buildUiTimers]
  rw [List.filter_map]
  unfold keptNotes
  rw [List.filter_filter]
  have hg : (fun n : SongNote =>
        ((a + d) + startTimeSec s (o + d * s) n * 1000, n.note, n.startTime))
      = (fun n : SongNote =>
        (a + startTimeSec s o n * 1000, n.note, n.startTime)) := by
    funext n
    unfold startTimeSec
    have h1 : (a + d) + (n.startTime - (o + d * s)) / (1000 * s) * 1000
        = a + (n.startTime - o) / (1000 * s) * 1000 := by
      have hs0 : s ≠ 0 := ne_of_gt hs
      field_simp
      ring
    rw [h1]
  rw [hg]
  congr 1
  apply List.filter_congr
  intro n _
  have hc : ((fun e : ℚ × String × ℚ => decide (a + d ≤ e.1)) ∘
        (fun n : SongNote => (a + startTimeSec s o n * 1000, n.note, n.startTime))) n
      = decide (a + d ≤ a + (n.startTime - o) / (1000 * s) * 1000) := rfl
  rw [hc, highlight_bool o s a d n.startTime hs hd]

lemma scheduleSong_proj (audioNow offset : ℚ) (st : EngineState)
    (song : List SongNote) (hS : st.song = some song) :
    (scheduleSong audioNow offset st).scheduledNodes
        = buildTones song offset st.playbackSpeed audioNow ∧
    (scheduleSong audioNow offset st).scheduledUiCallbacks
        = buildUiTimers song offset st.playbackSpeed ++
          (match song.getLast? with
           | some lastNote => [UiTimer.endOfSong
               ((lastNote.startTime + lastNote.duration - offset)
                 / st.playbackSpeed + 100)]
           | none => []) ∧
    (scheduleSong audioNow offset st).song = some song ∧
    (scheduleSong audioNow offset st).playbackSpeed = st.playbackSpeed ∧
    (scheduleSong audioNow offset st).playbackStartTime = st.playbackStartTime ∧
    (scheduleSong audioNow offset st).playbackProgressRef = st.playbackProgressRef := by
  cases hlast : song.getLast? <;>
    simp [scheduleSong, hS, hlast, stopAllSounds]

lemma handlePlayPause_play (nowPerf audioNow : ℚ) (st : EngineState)
    (hne : st.appState ≠ AppState.PLAYING) :
    handlePlayPause nowPerf audioNow st =
      { scheduleSong audioNow
          (if st.appState = AppState.PAUSED then st.playbackProgressRef else 0)
          { st with playbackStartTime := nowPerf }
        with appState := AppState.PLAYING } := by
  simp [handlePlayPause, hne]

lemma handlePlayPause_pause (nowPerf audioNow : ℚ) (st : EngineState)
    (hp : st.appState = AppState.PLAYING) :
    handlePlayPause nowPerf audioNow st =
      { stopAllSounds { st with playbackProgressRef :=
            st.playbackProgressRef +
              (nowPerf - st.playbackStartTime) * st.playbackSpeed }
        with appState := AppState.PAUSED } := by
  simp [handlePlayPause, hp]

/-! ### C6 -/

/-- C6: pause then immediate resume (same instant `t` on the perf clock,
`bt` on the audio clock) from a Playing state whose plan was built by the
preceding resume at `(a, b)` from offset `o` at speed `s`.  Writing `stP` for
the Playing state, `stPause` for the paused state and `stPR` for the resumed
state: (1) the resume leaves `accumulatedMs` exactly as the pause froze it;
(2) that frozen value is the elapsed time derived at the pause instant
(continuity into the pause); (3) the elapsed time derived after the pair at
`t` equals the one derived before it; (4) the rebuilt plan's tone list is
exactly the not-yet-started part of the old plan — the same tones with the
same absolute start and stop instants; (5) the rebuilt highlight timers fire
at exactly the absolute instants of the old plan's not-yet-fired highlight
timers, with the same payloads; (6) the terminal timer's absolute fire
instant is unchanged; (7) the state is Playing again. -/
theorem pause_resume_zero_gap_plan_preserved
    (st0 : EngineState) (song : List SongNote) (s o a b t bt : ℚ)
    (hA : st0.appState = AppState.PAUSED) (hS : st0.song = some song)
    (hsp : st0.playbackSpeed = s) (hpr : st0.playbackProgressRef = o)
    (hs : 0 < s) (hat : a ≤ t) (hbt : bt = b + (t - a) / 1000) :
    (handlePlayPause t bt (handlePlayPause t bt
        (handlePlayPause a b st0))).playbackProgressRef
      = (handlePlayPause t bt (handlePlayPause a b st0)).playbackProgressRef ∧
    (handlePlayPause t bt (handlePlayPause a b st0)).playbackProgressRef
      = derivedElapsed t (handlePlayPause a b st0) ∧
    derivedElapsed t (handlePlayPause t bt (handlePlayPause t bt
        (handlePlayPause a b st0)))
      = derivedElapsed t (handlePlayPause a b st0) ∧
    (handlePlayPause t bt (handlePlayPause t bt
        (handlePlayPause a b st0))).scheduledNodes
      = ((handlePlayPause a b st0).scheduledNodes).filter
          (fun tone => decide (bt ≤ tone.startAt)) ∧
    highlightFireTimesAbs t (handlePlayPause t bt (handlePlayPause t bt
        (handlePlayPause a b st0))).scheduledUiCallbacks
      = (highlightFireTimesAbs a
          (handlePlayPause a b st0).scheduledUiCallbacks).filter
          (fun e => decide (t ≤ e.1)) ∧
    endFireTimesAbs t (handlePlayPause t bt (handlePlayPause t bt
        (handlePlayPause a b st0))).scheduledUiCallbacks
      = endFireTimesAbs a (handlePlayPause a b st0).scheduledUiCallbacks ∧
    (handlePlayPause t bt (handlePlayPause t bt
        (handlePlayPause a b st0))).appState = AppState.PLAYING := by
  have hd0 : 0 ≤ t - a := sub_nonneg.mpr hat
  have hs0 : s ≠ 0 := ne_of_gt hs
  have hne0 : st0.appState ≠ AppState.PLAYING := by
    rw [hA]
    exact fun hc => AppState.noConfusion hc
  -- the Playing state stP
  have hstP : handlePlayPause a b st0 =
      { scheduleSong b o { st0 with playbackStartTime := a }
        with appState := AppState.PLAYING } := by
    rw [handlePlayPause_play a b st0 hne0, if_pos hA, hpr]
  have hP := scheduleSong_proj b o { st0 with playbackStartTime := a } song hS
  have hP_app : (handlePlayPause a b st0).appState = AppState.PLAYING := by
    rw [hstP]
  have hP_anchor : (handlePlayPause a b st0).playbackStartTime = a := by
    rw [hstP]
    show (scheduleSong b o { st0 with playbackStartTime := a }).playbackStartTime = a
    rw [hP.2.2.2.2.1]
  have hP_pr : (handlePlayPause a b st0).playbackProgressRef = o := by
    rw [hstP]
    show (scheduleSong b o { st0 with playbackStartTime := a }).playbackProgressRef = o
    rw [hP.2.2.2.2.2]
    exact hpr
  have hP_speed : (handlePlayPause a b st0).playbackSpeed = s := by
    rw [hstP]
    show (scheduleSong b o { st0 with playbackStartTime := a }).playbackSpeed = s
    rw [hP.2.2.2.1]
    exact hsp
  have hP_song : (handlePlayPause a b st0).song = some song := by
    rw [hstP]
    show (scheduleSong b o { st0 with playbackStartTime := a }).song = some song
    rw [hP.2.2.1]
  have hP_nodes : (handlePlayPause a b st0).scheduledNodes = buildTones song o s b := by
    rw [hstP]
    show (scheduleSong b o { st0 with playbackStartTime := a }).scheduledNodes = _
    rw [hP.1]
    show buildTones song o st0.playbackSpeed b = _
    rw [hsp]
  have hP_ui : (handlePlayPause a b st0).scheduledUiCallbacks
      = buildUiTimers song o s ++
        (match song.getLast? with
         | some lastNote => [UiTimer.endOfSong
             ((lastNote.startTime + lastNote.duration - o) / s + 100)]
         | none => []) := by
    rw [hstP]
    show (scheduleSong b o { st0 with playbackStartTime := a }).scheduledUiCallbacks = _
    rw [hP.2.1]
    show buildUiTimers song o st0.playbackSpeed ++ _ = _
    rw [hsp]
  -- the paused state stPause
  have hPause : handlePlayPause t bt (handlePlayPause a b st0) =
      { stopAllSounds { (handlePlayPause a b st0) with playbackProgressRef :=
            (handlePlayPause a b st0).playbackProgressRef +
              (t - (handlePlayPause a b st0).playbackStartTime) *
                (handlePlayPause a b st0).playbackSpeed }
        with appState := AppState.PAUSED } :=
    handlePlayPause_pause t bt _ hP_app
  have hPause_pr : (handlePlayPause t bt
      (handlePlayPause a b st0)).playbackProgressRef = o + (t - a) * s := by
    rw [hPause]
    show (handlePlayPause a b st0).playbackProgressRef +
        (t - (handlePlayPause a b st0).playbackStartTime) *
          (handlePlayPause a b st0).playbackSpeed = _
    rw [hP_pr, hP_anchor, hP_speed]
  have hPause_app : (handlePlayPause t bt
      (handlePlayPause a b st0)).appState = AppState.PAUSED := by
    rw [hPause]
  have hPause_ne : (handlePlayPause t bt
      (handlePlayPause a b st0)).appState ≠ AppState.PLAYING := by
    rw [hPause_app]
    exact fun hc => AppState.noConfusion hc
  have hPause_song : (handlePlayPause t bt
      (handlePlayPause a b st0)).song = some song := by
    rw [hPause]
    exact hP_song
  have hPause_speed : (handlePlayPause t bt
      (handlePlayPause a b st0)).playbackSpeed = s := by
    rw [hPause]
    exact hP_speed
  -- the resumed state stPR
  have hstPR : handlePlayPause t bt (handlePlayPause t bt (handlePlayPause a b st0)) =
      { scheduleSong bt (o + (t - a) * s)
          { (handlePlayPause t bt (handlePlayPause a b st0))
            with playbackStartTime := t }
        with appState := AppState.PLAYING } := by
    rw [handlePlayPause_play t bt _ hPause_ne, if_pos hPause_app]
    simp only [hPause_pr]
  have hPR := scheduleSong_proj bt (o + (t - a) * s)
    { (handlePlayPause t bt (handlePlayPause a b st0))
      with playbackStartTime := t } song hPause_song
  have hPR_pr : (handlePlayPause t bt (handlePlayPause t bt
      (handlePlayPause a b st0))).playbackProgressRef = o + (t - a) * s := by
    rw [hstPR]
    show (scheduleSong bt (o + (t - a) * s) _).playbackProgressRef = _
    rw [hPR.2.2.2.2.2]
    exact hPause_pr
  have hPR_anchor : (handlePlayPause t bt (handlePlayPause t bt
      (handlePlayPause a b st0))).playbackStartTime = t := by
    rw [hstPR]
    show (scheduleSong bt (o + (t - a) * s) _).playbackStartTime = _
    rw [hPR.2.2.2.2.1]
  have hPR_speed : (handlePlayPause t bt (handlePlayPause t bt
      (handlePlayPause a b st0))).playbackSpeed = s := by
    rw [hstPR]
    show (scheduleSong bt (o + (t - a) * s) _).playbackSpeed = _
    rw [hPR.2.2.2.1]
    exact hPause_speed
  have hPR_nodes : (handlePlayPause t bt (handlePlayPause t bt
      (handlePlayPause a b st0))).scheduledNodes
      = buildTones song (o + (t - a) * s) s bt := by
    rw [hstPR]
    show (scheduleSong bt (o + (t - a) * s) _).scheduledNodes = _
    rw [hPR.1]
    show buildTones song (o + (t - a) * s)
        (handlePlayPause t bt (handlePlayPause a b st0)).playbackSpeed bt = _
    rw [hPause_speed]
  have hPR_ui : (handlePlayPause t bt (handlePlayPause t bt
      (handlePlayPause a b st0))).scheduledUiCallbacks
      = buildUiTimers song (o + (t - a) * s) s ++
        (match song.getLast? with
         | some lastNote => [UiTimer.endOfSong
             ((lastNote.startTime + lastNote.duration - (o + (t - a) * s)) / s + 100)]
         | none => []) := by
    rw [hstPR]
    show (scheduleSong bt (o + (t - a) * s) _).scheduledUiCallbacks = _
    rw [hPR.2.1]
    show buildUiTimers song (o + (t - a) * s)
        (handlePlayPause t bt (handlePlayPause a b st0)).playbackSpeed ++ _ = _
    rw [hPause_speed]
  refine ⟨?_, ?_, ?_, ?_, ?_, ?_, ?_⟩
  · rw [hPR_pr, hPause_pr]
  · rw [hPause_pr]
    unfold derivedElapsed
    rw [hP_pr, hP_anchor, hP_speed]
  · unfold derivedElapsed
    rw [hPR_pr, hPR_anchor, hPR_speed, hP_pr, hP_anchor, hP_speed]
    ring
  · rw [hPR_nodes, hP_nodes, hbt, buildTones_shift song o s b (t - a) hs hd0]
  · rw [hPR_ui, hP_ui, highlightFireTimesAbs, highlightFireTimesAbs,
      List.filterMap_append, List.filterMap_append]
    show highlightFireTimesAbs t (buildUiTimers song (o + (t - a) * s) s) ++
        highlightFireTimesAbs t _ =
      (highlightFireTimesAbs a (buildUiTimers song o s) ++
        highlightFireTimesAbs a _).filter (fun e => decide (t ≤ e.1))
    have hnew : highlightFireTimesAbs t
        (match song.getLast? with
         | some lastNote => [UiTimer.endOfSong
             ((lastNote.startTime + lastNote.duration - (o + (t - a) * s)) / s + 100)]
         | none => ([] : List UiTimer)) = [] := by
      cases song.getLast? <;> rfl
    have hold : highlightFireTimesAbs a
        (match song.getLast? with
         | some lastNote => [UiTimer.endOfSong
             ((lastNote.startTime + lastNote.duration - o) / s + 100)]
         | none => ([] : List UiTimer)) = [] := by
      cases song.getLast? <;> rfl
    rw [hnew, hold, List.append_nil, List.append_nil]
    have hta : a + (t - a) = t := by ring
    have hshift := highlightAbs_shift song o s a (t - a) hs hd0
    rw [hta] at hshift
    exact hshift
  · rw [hPR_ui, hP_ui, endFireTimesAbs, endFireTimesAbs,
      List.filterMap_append, List.filterMap_append]
    show endFireTimesAbs t (buildUiTimers song (o + (t - a) * s) s) ++
        endFireTimesAbs t _ =
      endFireTimesAbs a (buildUiTimers song o s) ++ endFireTimesAbs a _
    rw [endAbs_buildUiTimers, endAbs_buildUiTimers, List.nil_append, List.nil_append]
    cases hlast : song.getLast? with
    | none => rfl
    | some lastNote =>
      show [t + ((lastNote.startTime + lastNote.duration - (o + (t - a) * s)) / s + 100)]
          = [a + ((lastNote.startTime + lastNote.duration - o) / s + 100)]
      have : t + ((lastNote.startTime + lastNote.duration - (o + (t - a) * s)) / s + 100)
          = a + ((lastNote.startTime + lastNote.duration - o) / s + 100) := by
        field_simp
        ring
      rw [this]
  · rw [hstPR]

/-- A Paused state holding `speedSong` at offset 0, speed 1.0. -/
def pausedWitnessState : EngineState :=
  { initialState with appState := AppState.PAUSED, song := some speedSong }

/-- Witness for C6: resume at (0 ms, 0 s), pause and immediately resume at
(100 ms, 0.1 s) — the resume leaves the accumulated progress exactly as the
pause froze it. -/
theorem pause_resume_zero_gap_witness :
    (handlePlayPause 100 (1/10) (handlePlayPause 100 (1/10)
        (handlePlayPause 0 0 pausedWitnessState))).playbackProgressRef
      = (handlePlayPause 100 (1/10)
          (handlePlayPause 0 0 pausedWitnessState)).playbackProgressRef :=
  (pause_resume_zero_gap_plan_preserved pausedWitnessState speedSong 1 0 0 0 100
    (1/10) rfl rfl rfl rfl (by norm_num) (by norm_num) (by norm_num)).1
